import Mathlib

/-!
Verification development for the go-storethehash repository.

The development shallowly embeds the repository's Go code:

* `src/internal/buckets.go` — the bucket table (`NewBuckets`, `Buckets.Get`,
  `Buckets.Put`).
* `src/internal/store.go` — the store façade (`Store.Get`, `Store.Put`,
  `Store.Has`, `Store.GetSize`, `Store.Close`, `commit`).  The index and the
  primary storage are collaborators reached through interfaces; they are
  embedded as oracle function fields of the store model, so theorems about
  the façade quantify over every behaviour of those collaborators.
* The record codec and the record list (`EncodeKeyPosition`,
  `NewRecordList`, `FindKeyPosition`, `RecordList.Get`): their
  implementation file is not among the sources, only their tests are, so
  they are modelled from the specification (with the field widths pinned by
  the repository's own test vectors).

Machine integers are embedded as `Nat`, with an explicit `% 2^32` where Go's
`uint32` arithmetic can wrap.  Byte strings are `List Nat` whose elements
are below 256 in every concrete input.
-/

set_option maxRecDepth 100000

/-- Error values of the store (`ErrKeyExists`, `ErrOutOfBounds`,
`ErrIndexTooLarge` in the Go sources); `ioErr n` stands for an arbitrary
I/O or codec error passed through from a collaborator. -/
inductive GoErr where
  | keyExists
  | outOfBounds
  | indexTooLarge
  | ioErr (code : Nat)
deriving DecidableEq, Repr

/-- `Block` from the sources: where and how big a record is in the primary
log (`Offset` is a `Position`, an unsigned 64-bit file offset; `Size` an
unsigned 32-bit byte length). -/
structure Block where
  offset : Nat
  size : Nat
deriving DecidableEq, Repr

/-- `KeyedBlock` from the sources: a `Block` together with `KeySize`, the
original length of the key stored at the referenced primary location. -/
structure KeyedBlock where
  block : Block
  keySize : Nat
deriving DecidableEq, Repr

/-- `KeyPositionPair` from the sources: a stored key together with its
`KeyedBlock`. -/
structure KeyPositionPair where
  key : List Nat
  block : KeyedBlock
deriving DecidableEq, Repr

/-- `Record` from the sources: a `KeyPositionPair` plus the byte position of
the record within its record list. -/
structure Record where
  key : List Nat
  block : KeyedBlock
  pos : Nat
deriving DecidableEq, Repr

/-- Little-endian encoding of `v` on `n` bytes (Go's
`binary.LittleEndian.PutUintNN`); values above `2^(8*n)` wrap. -/
def toLE : Nat → Nat → List Nat
  | 0, _ => []
  | n + 1, v => v % 256 :: toLE n (v / 256)

/-- Little-endian decoding of a byte run (Go's
`binary.LittleEndian.UintNN`). -/
def fromLE : List Nat → Nat
  | [] => 0
  | b :: bs => b + 256 * fromLE bs

/-- Modelled from the spec: `EncodeKeyPosition`, whose implementation file
(the record-list source) is missing from the sources.  A record is encoded
as offset (8 bytes little-endian), size (4 bytes little-endian), keySize,
the 1-byte stored-key length, then the stored key.  The spec's §4.1 table
claims a 2-byte keySize field, but the repository's own test vector
(`TestEncodeKeyPosition`) and the byte positions in
`TestRecordListFindKeyPosition` (also quoted in the spec's §8 table) pin
keySize to a single byte, so `KeySizeBytes = 1` and a record occupies
`14 + storedKeyLen` bytes. -/
def encodeKeyPosition (p : KeyPositionPair) : List Nat :=
  toLE 8 p.block.block.offset ++ toLE 4 p.block.block.size ++
    [p.block.keySize % 256] ++ [p.key.length % 256] ++ p.key

/-- Modelled from the spec: `NewRecordList` instantiates a record list from
the raw bucket snapshot, skipping the 4-byte bucket-bits prefix; all record
positions are relative to the remaining payload. -/
def newRecordList (data : List Nat) : List Nat :=
  data.drop 4

/-- Modelled from the spec: one step of the record-list reader.  Decodes the
three fixed fields, the 1-byte stored-key length, then slices that many
bytes; fuel bounds the recursion (each step consumes at least 14 bytes, so
`bytes.length` fuel always suffices). -/
def recordsFromAux : Nat → List Nat → Nat → List Record
  | 0, _, _ => []
  | fuel + 1, bytes, pos =>
    if bytes.isEmpty then []
    else
      let offset := fromLE (bytes.take 8)
      let size := fromLE ((bytes.drop 8).take 4)
      let keySize := (bytes.drop 12).headD 0
      let keyLen := (bytes.drop 13).headD 0
      let key := (bytes.drop 14).take keyLen
      ⟨key, ⟨⟨offset, size⟩, keySize⟩, pos⟩ ::
        recordsFromAux fuel (bytes.drop (14 + keyLen)) (pos + 14 + keyLen)

/-- Modelled from the spec: iterating a record list yields its records in
order, each carrying its byte position within the payload. -/
def records (rl : List Nat) : List Record :=
  recordsFromAux rl.length rl 0

/-- Go's `bytes.Compare`: byte-lexicographic comparison where a strict
prefix is less than the longer string. -/
def cmpBytes : List Nat → List Nat → Ordering
  | [], [] => .eq
  | [], _ :: _ => .lt
  | _ :: _, [] => .gt
  | a :: as1, b :: bs1 =>
    if a < b then .lt else if b < a then .gt else cmpBytes as1 bs1

/-- Modelled from the spec: the walk inside `FindKeyPosition`.  Stops at the
first record whose stored key is greater than or equal to the probe and
returns that record's start offset together with the last record strictly
below the probe; when no record stops the walk, the insertion position is
the total payload length. -/
def findAux (key : List Nat) : List Record → Option Record → Nat →
    Nat × Option Record
  | [], prev, plen => (plen, prev)
  | r :: rest, prev, plen =>
    if cmpBytes r.key key = Ordering.lt then findAux key rest (some r) plen
    else (r.pos, prev)

/-- Modelled from the spec: `RecordList.FindKeyPosition`.  The second
component is the previous record; `hasPrev` of the Go function is its
`isSome`. -/
def findKeyPosition (rl : List Nat) (key : List Nat) : Nat × Option Record :=
  findAux key (records rl) none rl.length

/-- Modelled from the spec: the scan inside `RecordList.Get`.  Returns the
first record whose stored key is a byte prefix of the probe; stops with no
result as soon as a stored key exceeds the probe. -/
def getRec (key : List Nat) : List Record → Option KeyedBlock
  | [] => none
  | r :: rest =>
    if r.key.isPrefixOf key then some r.block
    else if cmpBytes r.key key = Ordering.gt then none
    else getRec key rest

/-- Modelled from the spec: `RecordList.Get` — exact lookup of a full index
key against the stored prefixes. -/
def recordListGet (rl : List Nat) (key : List Nat) : Option KeyedBlock :=
  getRec key (records rl)

/-- The record-building loop shared by the repository's record-list tests:
key number `i` gets `(offset = i, size = i, keySize = i)`. -/
def buildData : Nat → List (List Nat) → List Nat
  | _, [] => []
  | i, k :: ks => encodeKeyPosition ⟨k, ⟨⟨i, i⟩, i⟩⟩ ++ buildData (i + 1) ks

/-- The reference keys {a, ac, b, d, de, dn, nky, xrlfg} of the search-position
table. -/
def refKeys : List (List Nat) :=
  [[97], [97, 99], [98], [100], [100, 101], [100, 110],
   [110, 107, 121], [120, 114, 108, 102, 103]]

/-- The record list built from the reference keys, with the 4-byte
bucket-bits prefix prepended and skipped again by `newRecordList`. -/
def rlFind : List Nat :=
  newRecordList ([0, 0, 0, 0] ++ buildData 0 refKeys)

/-- The keys {a, ac, b, de, dn, nky, xrlfg} of the exact-lookup test. -/
def getKeys : List (List Nat) :=
  [[97], [97, 99], [98], [100, 101], [100, 110],
   [110, 107, 121], [120, 114, 108, 102, 103]]

/-- The record list built from the exact-lookup keys. -/
def rlGet : List Nat :=
  newRecordList ([0, 0, 0, 0] ++ buildData 0 getKeys)


/-- `NewBuckets` from `src/internal/buckets.go`: rejects `indexSizeBits > 32`
with `ErrIndexTooLarge`, otherwise allocates `2 ^ indexSizeBits` zeroed
entries.  `NewSizeBuckets` and `NewKeySizeBuckets` are textually identical
up to the element type, so this single `Nat`-valued definition embeds all
three parallel arrays. -/
def newBuckets (indexSizeBits : Nat) : Except GoErr (List Nat) :=
  if indexSizeBits > 32 then .error .indexTooLarge
  else .ok (List.replicate (2 ^ indexSizeBits) 0)

/-- `Buckets.Get` from `src/internal/buckets.go`: the bound check
`int(index) > len(b)-1` is computed over `Int` exactly as Go computes it
over `int`. -/
def bucketsGet (b : List Nat) (index : Nat) : Except GoErr Nat :=
  if (index : Int) > (b.length : Int) - 1 then .error .outOfBounds
  else .ok (b.getD index 0)

/-- `Buckets.Put` from `src/internal/buckets.go`. -/
def bucketsPut (b : List Nat) (index : Nat) (offset : Nat) :
    Except GoErr (List Nat) :=
  if (index : Int) > (b.length : Int) - 1 then .error .outOfBounds
  else .ok (b.set index offset)

/-- Go's `uint32` subtraction `a - b` on `Nat` operands, wrapping modulo
`2^32` (used by `Store.GetSize` for `blk.Size - Size(len(key))`). -/
def sub32 (a b : Nat) : Nat :=
  (a % 4294967296 + 4294967296 - b % 4294967296) % 4294967296

/-- The store façade of `src/internal/store.go`.  The mutable fields mirror
the Go struct (`err`, `open`, `running`) plus the states of the two
collaborators; the function fields are the oracle behaviours of the index
(`Index.Get/Put/Flush/Sync/Close/OutstandingWork`, whose implementation is
reached through `s.index`) and of the primary storage
(`PrimaryStorage.IndexKey/Get/GetIndexKey/Put/Flush/Sync/Close/OutstandingWork`).
Oracles returning `(σ × …)` may mutate their collaborator's state; a triple
component `Option GoErr` is Go's trailing `error` result. -/
structure StoreM (σi σp : Type) where
  err : Option GoErr
  openFlag : Bool
  running : Bool
  indexSt : σi
  primarySt : σp
  indexKeyFn : List Nat → Except GoErr (List Nat)
  indexGet : σi → List Nat → KeyedBlock × Bool × Option GoErr
  indexPut : σi → List Nat → Nat → σi × Option GoErr
  primaryGet : σp → Block → Except GoErr (List Nat × List Nat)
  getIndexKey : σp → KeyedBlock → Except GoErr (List Nat)
  primaryPut : σp → List Nat → List Nat → σp × Nat × Option GoErr
  indexOutstanding : σi → Nat
  primaryOutstanding : σp → Nat
  primaryFlush : σp → σp × Nat × Option GoErr
  indexFlush : σi → σi × Nat × Option GoErr
  primarySync : σp → σp × Option GoErr
  indexSync : σi → σi × Option GoErr
  indexClose : σi → Option GoErr
  primaryClose : σp → Option GoErr

/-- `Store.Get` from `src/internal/store.go` (lines 116–143): fail on a
stored error, derive the index key, query the index, read the primary at
the returned block, and return the value only when the primary's full key
is byte-for-byte equal to the queried key. -/
def storeGet {σi σp : Type} (s : StoreM σi σp) (key : List Nat) :
    Option (List Nat) × Bool × Option GoErr :=
  match s.err with
  | some e => (none, false, some e)
  | none =>
    match s.indexKeyFn key with
    | .error e => (none, false, some e)
    | .ok indexKey =>
      match s.indexGet s.indexSt indexKey with
      | (_, _, some e) => (none, false, some e)
      | (fileOffset, found, none) =>
        if !found then (none, false, none)
        else
          match s.primaryGet s.primarySt fileOffset.block with
          | .error e => (none, false, some e)
          | .ok (primaryKey, value) =>
            if key = primaryKey then (some value, true, none)
            else (none, false, none)

/-- `Store.Has` from `src/internal/store.go` (lines 246–268): note that the
`error` result of `index.Get` is never inspected — on `found = false` the
function returns `(false, nil)` regardless of that error. -/
def storeHas {σi σp : Type} (s : StoreM σi σp) (key : List Nat) :
    Bool × Option GoErr :=
  match s.err with
  | some e => (false, some e)
  | none =>
    match s.indexKeyFn key with
    | .error e => (false, some e)
    | .ok indexKey =>
      match s.indexGet s.indexSt indexKey with
      | (blk, found, _) =>
        if !found then (false, none)
        else
          match s.getIndexKey s.primarySt blk with
          | .error e => (false, some e)
          | .ok primaryIndexKey => (indexKey == primaryIndexKey, none)

/-- `Store.GetSize` from `src/internal/store.go` (lines 270–295): unlike
`Get` and `Has` it never consults the stored façade error; on success it
returns `blk.Size - Size(len(key))` computed with `uint32` wrap-around. -/
def storeGetSize {σi σp : Type} (s : StoreM σi σp) (key : List Nat) :
    Nat × Bool × Option GoErr :=
  match s.indexKeyFn key with
  | .error e => (0, false, some e)
  | .ok indexKey =>
    match s.indexGet s.indexSt indexKey with
    | (_, _, some e) => (0, false, some e)
    | (blk, found, none) =>
      if !found then (0, false, none)
      else
        match s.getIndexKey s.primarySt blk with
        | .error e => (0, false, some e)
        | .ok primaryIndexKey =>
          if indexKey = primaryIndexKey then
            (sub32 blk.block.size key.length, true, none)
          else (0, false, none)

/-- `Store.Put` from `src/internal/store.go` (lines 157–195): fail on a
stored error, reject duplicates via `Has`, append to the primary, then
update the index.  The trailing rate computation only reads the admission
state and possibly sleeps, so it changes no modelled state. -/
def storePut {σi σp : Type} (s : StoreM σi σp) (key value : List Nat) :
    StoreM σi σp × Option GoErr :=
  match s.err with
  | some e => (s, some e)
  | none =>
    match storeHas s key with
    | (_, some e) => (s, some e)
    | (has, none) =>
      if has then (s, some .keyExists)
      else
        match s.primaryPut s.primarySt key value with
        | (p2, _, some e) => ({s with primarySt := p2}, some e)
        | (p2, fileOffset, none) =>
          match s.indexKeyFn key with
          | .error e => ({s with primarySt := p2}, some e)
          | .ok indexKey =>
            match s.indexPut s.indexSt indexKey fileOffset with
            | (i2, some e) => ({s with primarySt := p2, indexSt := i2}, some e)
            | (i2, none) => ({s with primarySt := p2, indexSt := i2}, none)

/-- `Store.commit` from `src/internal/store.go` (lines 197–215): flush the
primary, flush the index, then sync both; the first failure aborts with
zero work. -/
def storeCommit {σi σp : Type} (s : StoreM σi σp) :
    StoreM σi σp × Nat × Option GoErr :=
  match s.primaryFlush s.primarySt with
  | (p2, _, some e) => ({s with primarySt := p2}, 0, some e)
  | (p2, primaryWork, none) =>
    match s.indexFlush s.indexSt with
    | (i2, _, some e) => ({s with primarySt := p2, indexSt := i2}, 0, some e)
    | (i2, indexWork, none) =>
      match s.primarySync p2 with
      | (p3, some e) => ({s with primarySt := p3, indexSt := i2}, 0, some e)
      | (p3, none) =>
        match s.indexSync i2 with
        | (i3, some e) => ({s with primarySt := p3, indexSt := i3}, 0, some e)
        | (i3, none) =>
          ({s with primarySt := p3, indexSt := i3},
            primaryWork + indexWork, none)

/-- The commit-if-outstanding step of `Store.Close`
(`src/internal/store.go` lines 95–99): when outstanding work exists, run
`commit` and persist its error via `setErr`. -/
def closeCommitStep {σi σp : Type} (s : StoreM σi σp) : StoreM σi σp :=
  if s.indexOutstanding s.indexSt + s.primaryOutstanding s.primarySt > 0 then
    match storeCommit s with
    | (s3, _, some e) => {s3 with err := some e}
    | (s3, _, none) => s3
  else s

/-- The body of `Store.Close` past the idempotence guard
(`src/internal/store.go` lines 86–113): stop the flusher, commit any
outstanding work (persisting a commit error), then close the index and the
primary unless an error is stored. -/
def closeFiles {σi σp : Type} (s2 : StoreM σi σp) :
    StoreM σi σp × Option GoErr :=
  match s2.err with
  | some e => (s2, some e)
  | none =>
    match s2.indexClose s2.indexSt with
    | some e => (s2, some e)
    | none =>
      match s2.primaryClose s2.primarySt with
      | some e => (s2, some e)
      | none => (s2, none)

def closeInner {σi σp : Type} (s : StoreM σi σp) :
    StoreM σi σp × Option GoErr :=
  closeFiles (closeCommitStep {s with running := false})

/-- `Store.Close` from `src/internal/store.go` (lines 76–114): the open flag
is cleared first; if the store was already closed the call returns `nil`
immediately with no further work. -/
def storeClose {σi σp : Type} (s : StoreM σi σp) :
    StoreM σi σp × Option GoErr :=
  if s.openFlag then closeInner {s with openFlag := false}
  else ({s with openFlag := false}, none)

theorem toLE_length : ∀ (n v : Nat), (toLE n v).length = n := by
  intro n
  induction n with
  | zero => intro v; rfl
  | succ m ih => intro v; simp [toLE, ih]

theorem encodeKeyPosition_length (p : KeyPositionPair) :
    (encodeKeyPosition p).length = 14 + p.key.length := by
  simp [encodeKeyPosition, toLE_length]
  omega

theorem cmpBytes_gt_iff : ∀ (a b : List Nat),
    cmpBytes a b = Ordering.gt ↔ cmpBytes b a = Ordering.lt := by
  intro a
  induction a with
  | nil => intro b; cases b <;> simp [cmpBytes]
  | cons x xs ih =>
    intro b
    cases b with
    | nil => simp [cmpBytes]
    | cons y ys =>
      simp only [cmpBytes]
      rcases Nat.lt_trichotomy x y with h | h | h
      · simp [h, Nat.not_lt.mpr (Nat.le_of_lt h), Nat.lt_irrefl]
      · subst h
        simp [Nat.lt_irrefl, ih]
      · simp [h, Nat.not_lt.mpr (Nat.le_of_lt h)]

theorem cmpBytes_lt_trans : ∀ (a b c : List Nat),
    cmpBytes a b = Ordering.lt → cmpBytes b c = Ordering.lt →
    cmpBytes a c = Ordering.lt := by
  intro a
  induction a with
  | nil =>
    intro b c hab hbc
    cases b with
    | nil => simp [cmpBytes] at hab
    | cons y ys =>
      cases c with
      | nil => simp [cmpBytes] at hbc
      | cons z zs => simp [cmpBytes]
  | cons x xs ih =>
    intro b c hab hbc
    cases b with
    | nil => simp [cmpBytes] at hab
    | cons y ys =>
      cases c with
      | nil => simp [cmpBytes] at hbc
      | cons z zs =>
        simp only [cmpBytes] at hab hbc ⊢
        rcases Nat.lt_trichotomy x y with hxy | hxy | hxy
        · rcases Nat.lt_trichotomy y z with hyz | hyz | hyz
          · simp [Nat.lt_trans hxy hyz]
          · subst hyz; simp [hxy]
          · exfalso
            simp [Nat.not_lt.mpr (Nat.le_of_lt hyz), hyz] at hbc
        · subst hxy
          rcases Nat.lt_trichotomy x z with hyz | hyz | hyz
          · simp [hyz]
          · subst hyz
            simp [Nat.lt_irrefl] at hab hbc ⊢
            exact ih _ _ hab hbc
          · exfalso
            simp [Nat.not_lt.mpr (Nat.le_of_lt hyz), hyz] at hbc
        · exfalso
          simp [Nat.not_lt.mpr (Nat.le_of_lt hxy), hxy] at hab

theorem isPrefixOf_cmpBytes_ne_gt : ∀ (a b : List Nat),
    a.isPrefixOf b = true → cmpBytes a b ≠ Ordering.gt := by
  intro a
  induction a with
  | nil =>
    intro b _
    cases b <;> simp [cmpBytes]
  | cons x xs ih =>
    intro b hpre
    cases b with
    | nil => simp [List.isPrefixOf] at hpre
    | cons y ys =>
      simp only [List.isPrefixOf, Bool.and_eq_true, beq_iff_eq] at hpre
      obtain ⟨rfl, hpre⟩ := hpre
      simp only [cmpBytes, Nat.lt_irrefl, if_false]
      exact ih ys hpre

/-- The exact-lookup invariant behind `RecordList.Get`: on a strictly
ascending record list, the scan finds a result exactly when some stored key
is a byte prefix of the probe. -/
theorem getRec_isSome_iff (key : List Nat) :
    ∀ (rs : List Record),
      List.Pairwise (fun a b => cmpBytes a.key b.key = Ordering.lt) rs →
      ((getRec key rs).isSome = true ↔
        ∃ r ∈ rs, r.key.isPrefixOf key = true) := by
  intro rs
  induction rs with
  | nil => simp [getRec]
  | cons r rest ih =>
    intro hpw
    rcases List.pairwise_cons.mp hpw with ⟨hhead, htail⟩
    cases hpre : r.key.isPrefixOf key with
    | true =>
      simp [getRec, hpre]
      exact Or.inl (List.isPrefixOf_iff_prefix.mp hpre)
    | false =>
      by_cases hgt : cmpBytes r.key key = Ordering.gt
      · simp [getRec, hpre, hgt]
        refine ⟨fun hc => ?_, fun s hs hspre => ?_⟩
        · rw [← List.isPrefixOf_iff_prefix] at hc
          simp [hpre] at hc
        · have h1 : cmpBytes key s.key = Ordering.lt :=
            cmpBytes_lt_trans _ _ _ ((cmpBytes_gt_iff _ _).mp hgt) (hhead s hs)
          exact isPrefixOf_cmpBytes_ne_gt s.key key
            (List.isPrefixOf_iff_prefix.mpr hspre) ((cmpBytes_gt_iff _ _).mpr h1)
      · have hrest := ih htail
        simp [getRec, hpre, hgt] at hrest ⊢
        rw [hrest]
        constructor
        · intro h
          exact Or.inr h
        · rintro (hc | h)
          · exfalso
            rw [← List.isPrefixOf_iff_prefix] at hc
            simp [hpre] at hc
          · exact h

/-- C1, counterexample: the claimed 22-byte canonical vector (with a 2-byte
keySize field `0e 00`) is not what the codec produces, and the encoded
length is not `15 + storedKeyLen` — the repository's test pins a 1-byte
keySize field, 21 bytes in total. -/
theorem C1_counterexample :
    encodeKeyPosition
        ⟨[97, 98, 99, 100, 101, 102, 103], ⟨⟨4326, 64⟩, 14⟩⟩ ≠
      [0xe6, 0x10, 0, 0, 0, 0, 0, 0, 0x40, 0, 0, 0, 0x0e, 0x00, 0x07,
       0x61, 0x62, 0x63, 0x64, 0x65, 0x66, 0x67] ∧
    (encodeKeyPosition
        ⟨[97, 98, 99, 100, 101, 102, 103], ⟨⟨4326, 64⟩, 14⟩⟩).length ≠
      15 + 7 := by
  decide

/-- C1 (amended): encoding the record (key="abcdefg", offset=4326, size=64,
keySize=14) produces exactly the 21 bytes
`e6 10 00 00 00 00 00 00 | 40 00 00 00 | 0e | 07 | 61 62 63 64 65 66 67`
(offset 8 bytes little-endian, size 4 bytes little-endian, keySize 1 byte,
1-byte stored-key length, then the stored key), and for every record with
stored-key length at most 255 the encoded length equals
`14 + storedKeyLen`. -/
theorem C1_encode_canonical_and_length :
    encodeKeyPosition
        ⟨[97, 98, 99, 100, 101, 102, 103], ⟨⟨4326, 64⟩, 14⟩⟩ =
      [0xe6, 0x10, 0, 0, 0, 0, 0, 0, 0x40, 0, 0, 0, 0x0e, 0x07,
       0x61, 0x62, 0x63, 0x64, 0x65, 0x66, 0x67] ∧
    ∀ p : KeyPositionPair, p.key.length ≤ 255 →
      (encodeKeyPosition p).length = 14 + p.key.length := by
  exact ⟨by decide, fun p _ => encodeKeyPosition_length p⟩

/-- C1, witness for the amended theorem at a concrete record. -/
theorem C1_witness :
    ([97, 98, 99] : List Nat).length ≤ 255 ∧
      (encodeKeyPosition ⟨[97, 98, 99], ⟨⟨1, 2⟩, 3⟩⟩).length =
        14 + ([97, 98, 99] : List Nat).length :=
  ⟨by decide,
    C1_encode_canonical_and_length.2 ⟨[97, 98, 99], ⟨⟨1, 2⟩, 3⟩⟩ (by decide)⟩

/-- C2: on the record list built from {a, ac, b, d, de, dn, nky, xrlfg}
(key number i with offset=i, size=i, keySize=i), `FindKeyPosition` returns
position 0 with no previous record for "ABCD"; 15 with previous "a" for
"ab"; 46 with previous "b" for "c" and for "cabefg"; 77 with previous "de"
for "dg"; 93 with previous "dn" for "hello"; 110 with previous "nky" for
"pz"; and 129 with previous "xrlfg" for "z". -/
theorem C2_find_key_position_table :
    findKeyPosition rlFind [65, 66, 67, 68] = (0, none) ∧
    (findKeyPosition rlFind [97, 98]).1 = 15 ∧
    ((findKeyPosition rlFind [97, 98]).2.map Record.key) = some [97] ∧
    (findKeyPosition rlFind [99]).1 = 46 ∧
    ((findKeyPosition rlFind [99]).2.map Record.key) = some [98] ∧
    (findKeyPosition rlFind [99, 97, 98, 101, 102, 103]).1 = 46 ∧
    ((findKeyPosition rlFind [99, 97, 98, 101, 102, 103]).2.map Record.key) =
      some [98] ∧
    (findKeyPosition rlFind [100, 103]).1 = 77 ∧
    ((findKeyPosition rlFind [100, 103]).2.map Record.key) = some [100, 101] ∧
    (findKeyPosition rlFind [104, 101, 108, 108, 111]).1 = 93 ∧
    ((findKeyPosition rlFind [104, 101, 108, 108, 111]).2.map Record.key) =
      some [100, 110] ∧
    (findKeyPosition rlFind [112, 122]).1 = 110 ∧
    ((findKeyPosition rlFind [112, 122]).2.map Record.key) =
      some [110, 107, 121] ∧
    (findKeyPosition rlFind [122]).1 = 129 ∧
    ((findKeyPosition rlFind [122]).2.map Record.key) =
      some [120, 114, 108, 102, 103] := by
  decide

/-- C3: record-list `Get` finds a result exactly when some record's stored
key is a byte prefix of the full index key (on a strictly ascending list,
which is the record-list invariant); in particular, on the list
{a, ac, b, de, dn, nky, xrlfg}, `Get("dngho")` returns the block stored for
"dn", while `Get("d")`, `Get("dg")`, `Get("ABCD")` and `Get("zzzzz")` find
nothing. -/
theorem C3_record_list_get :
    (∀ (key : List Nat) (rs : List Record),
        List.Pairwise (fun a b => cmpBytes a.key b.key = Ordering.lt) rs →
        ((getRec key rs).isSome = true ↔
          ∃ r ∈ rs, r.key.isPrefixOf key = true)) ∧
    recordListGet rlGet [100, 110, 103, 104, 111] = some ⟨⟨4, 4⟩, 4⟩ ∧
    recordListGet rlGet [100] = none ∧
    recordListGet rlGet [100, 103] = none ∧
    recordListGet rlGet [65, 66, 67, 68] = none ∧
    recordListGet rlGet [122, 122, 122, 122, 122] = none :=
  ⟨fun key rs h => getRec_isSome_iff key rs h,
    by decide, by decide, by decide, by decide, by decide⟩

/-- C3, witness: the found-iff-prefix equivalence applied to the concrete
test list (whose sortedness is discharged by computation). -/
theorem C3_witness :
    (getRec [100] (records rlGet)).isSome = true ↔
      ∃ r ∈ records rlGet, r.key.isPrefixOf [100] = true :=
  C3_record_list_get.1 [100] (records rlGet) (by decide)

/-- A concrete store instantiation used by witnesses: the index always
reports a hit at block (offset 0, size 10, keySize 2), and the primary
holds the key `[1, 2]` with an 8-byte value (so size 10 = 2 + 8). -/
def csBase : StoreM Unit Unit where
  err := none
  openFlag := true
  running := false
  indexSt := ()
  primarySt := ()
  indexKeyFn := fun k => .ok k
  indexGet := fun _ _ => (⟨⟨0, 10⟩, 2⟩, true, none)
  indexPut := fun _ _ _ => ((), none)
  primaryGet := fun _ _ => .ok ([1, 2], [7, 7, 7, 7, 7, 7, 7, 7])
  getIndexKey := fun _ _ => .ok [1, 2]
  primaryPut := fun _ _ _ => ((), 0, none)
  indexOutstanding := fun _ => 0
  primaryOutstanding := fun _ => 0
  primaryFlush := fun _ => ((), 0, none)
  indexFlush := fun _ => ((), 0, none)
  primarySync := fun _ => ((), none)
  indexSync := fun _ => ((), none)
  indexClose := fun _ => none
  primaryClose := fun _ => none

/-- C4: the façade's `Get(k)` reports found only when the index lookup
succeeds and the full key read back from the primary at the returned block
equals `k` byte-for-byte; and when the index reports a match but the
primary's full key differs from `k`, `Get` returns found=false with no
error. -/
theorem C4_get_confirms_full_key :
    (∀ {σi σp : Type} (s : StoreM σi σp) (key : List Nat),
        (storeGet s key).2.1 = true →
        ∃ indexKey blk value,
          s.indexKeyFn key = .ok indexKey ∧
          s.indexGet s.indexSt indexKey = (blk, true, none) ∧
          s.primaryGet s.primarySt blk.block = .ok (key, value) ∧
          storeGet s key = (some value, true, none)) ∧
    (∀ {σi σp : Type} (s : StoreM σi σp)
        (key indexKey primaryKey value : List Nat) (blk : KeyedBlock),
        s.err = none →
        s.indexKeyFn key = .ok indexKey →
        s.indexGet s.indexSt indexKey = (blk, true, none) →
        s.primaryGet s.primarySt blk.block = .ok (primaryKey, value) →
        primaryKey ≠ key →
        storeGet s key = (none, false, none)) := by
  constructor
  · intro σi σp s key h
    cases herr : s.err with
    | some e => simp [storeGet, herr] at h
    | none =>
      cases hik : s.indexKeyFn key with
      | error e => simp [storeGet, herr, hik] at h
      | ok indexKey =>
        rcases hig : s.indexGet s.indexSt indexKey with ⟨blk, found, e⟩
        cases e with
        | some e => simp [storeGet, herr, hik, hig] at h
        | none =>
          cases found with
          | false => simp [storeGet, herr, hik, hig] at h
          | true =>
            cases hpg : s.primaryGet s.primarySt blk.block with
            | error e => simp [storeGet, herr, hik, hig, hpg] at h
            | ok kv =>
              rcases kv with ⟨primaryKey, value⟩
              by_cases hkey : key = primaryKey
              · subst hkey
                exact ⟨indexKey, blk, value, by simp [hik], by simp [hig],
                  by simp [hpg], by simp [storeGet, herr, hik, hig, hpg]⟩
              · simp [storeGet, herr, hik, hig, hpg, hkey] at h
  · intro σi σp s key indexKey primaryKey value blk herr hik hig hpg hne
    have hne2 : ¬(key = primaryKey) := fun h => hne h.symm
    simp [storeGet, herr, hik, hig, hpg, hne2]

/-- C4, witness: a store whose primary holds the key `[1, 2]` at the block
the index returns; probing with the different key `[9]` yields
found=false and no error. -/
theorem C4_witness : storeGet csBase [9] = (none, false, none) :=
  C4_get_confirms_full_key.2 csBase [9] [9] [1, 2] [7, 7, 7, 7, 7, 7, 7, 7]
    ⟨⟨0, 10⟩, 2⟩ rfl rfl rfl rfl (by decide)

/-- C5: for every key already present (`Has` is true), `Put` returns the
`KeyExists` error and leaves the whole store state — in particular the
primary log and the index — unchanged: neither the primary append nor the
index mutation oracle is reached on the duplicate call. -/
theorem C5_put_duplicate_key_exists :
    ∀ {σi σp : Type} (s : StoreM σi σp) (key value : List Nat),
      (storeHas s key).1 = true →
      storePut s key value = (s, some GoErr.keyExists) := by
  intro σi σp s key value h
  have herr : s.err = none := by
    cases he : s.err with
    | none => rfl
    | some e => simp [storeHas, he] at h
  have hh : storeHas s key = (true, none) := by
    cases hik : s.indexKeyFn key with
    | error e => simp [storeHas, herr, hik] at h
    | ok indexKey =>
      rcases hig : s.indexGet s.indexSt indexKey with ⟨blk, found, e⟩
      cases found with
      | false => simp [storeHas, herr, hik, hig] at h
      | true =>
        cases hgik : s.getIndexKey s.primarySt blk with
        | error e2 => simp [storeHas, herr, hik, hig, hgik] at h
        | ok primaryIndexKey =>
          have := h
          simp [storeHas, herr, hik, hig, hgik] at this ⊢
          exact this
  simp [storePut, herr, hh]

/-- C5, witness: in the concrete store the probe `[1, 2]` is present, and
the duplicate `Put` returns `KeyExists` with the state untouched. -/
theorem C5_witness :
    storePut csBase [1, 2] [5] = (csBase, some GoErr.keyExists) :=
  C5_put_duplicate_key_exists csBase [1, 2] [5] (by decide)

/-- A concrete store whose primary collapses keys of different lengths onto
the same index key: the index key of a key is its first byte, and the key
stored at the referenced primary location is `[1, 2]` (original length 2),
with index key `[1]`. -/
def csShort : StoreM Unit Unit :=
  {csBase with
    indexKeyFn := fun k => .ok (k.take 1),
    getIndexKey := fun _ _ => .ok [1]}

/-- C6, counterexample: in `csShort` the key `[1]` is present (`Has` is
true) and the index's block has Size 10 while the key stored at the
referenced primary location is `[1, 2]` of original length 2 (matching the
block's KeySize field); yet `GetSize([1])` returns 9 = 10 − len([1]), not
10 − 2 = 8. -/
theorem C6_counterexample :
    storeHas csShort [1] = (true, none) ∧
    storeGetSize csShort [1] = (9, true, none) ∧
    csShort.primaryGet csShort.primarySt ⟨0, 10⟩ =
      .ok ([1, 2], [7, 7, 7, 7, 7, 7, 7, 7]) ∧
    ([1, 2] : List Nat).length = 2 ∧
    (9 : Nat) ≠ 10 - 2 := by
  refine ⟨by decide, by decide, rfl, by decide, by decide⟩

/-- C6 (amended): for every key k whose lookup succeeds (the index reports
a match and the index keys compare equal), `GetSize(k)` returns
`(blockSize − len(k), true)` computed with uint32 wrap-around, where
blockSize is the Size field of the block pointer held by the index and
len(k) is the length of the queried key; the index's KeySize field is not
consulted, so this equals blockSize − (original stored-key length) exactly
when the queried key has the stored key's length (as always holds for the
in-memory primary, whose index key is the full key). -/
theorem C6_get_size_subtracts_query_length :
    ∀ {σi σp : Type} (s : StoreM σi σp) (key indexKey : List Nat)
      (blk : KeyedBlock),
      s.indexKeyFn key = .ok indexKey →
      s.indexGet s.indexSt indexKey = (blk, true, none) →
      s.getIndexKey s.primarySt blk = .ok indexKey →
      storeGetSize s key = (sub32 blk.block.size key.length, true, none) := by
  intro σi σp s key indexKey blk hik hig hgik
  simp [storeGetSize, hik, hig, hgik]

/-- C6, witness for the amended theorem: in the base store `GetSize([1,2])`
returns `sub32 10 2 = 8` with found=true. -/
theorem C6_witness :
    storeGetSize csBase [1, 2] =
      (sub32 10 ([1, 2] : List Nat).length, true, none) :=
  C6_get_size_subtracts_query_length csBase [1, 2] [1, 2] ⟨⟨0, 10⟩, 2⟩
    rfl rfl rfl

/-- A concrete store with a persisted flush error, over the base store in
which the key `[1, 2]` is present. -/
def csErr : StoreM Unit Unit :=
  {csBase with err := some (GoErr.ioErr 1)}

/-- C7, counterexample: with an error stored on the façade, `Get` and `Has`
do not service queries — they fail with the stored error, even for a key
that the store holds (removing the stored error, the same `Get` returns
the value). -/
theorem C7_counterexample :
    storeGet csErr [1, 2] = (none, false, some (GoErr.ioErr 1)) ∧
    storeHas csErr [1, 2] = (false, some (GoErr.ioErr 1)) ∧
    storeGet {csErr with err := none} [1, 2] =
      (some [7, 7, 7, 7, 7, 7, 7, 7], true, none) := by
  refine ⟨rfl, rfl, rfl⟩

/-- C7 (amended): after an I/O error from a background Flush has been
stored on the façade, `GetSize` still services queries (it never consults
the stored error), while `Get`, `Has` and every `Put` fail by returning
the stored error (leaving the state unchanged), until the store is closed
and reopened. -/
theorem C7_stored_error_behaviour :
    ∀ {σi σp : Type} (s : StoreM σi σp) (e : GoErr) (key value : List Nat),
      s.err = some e →
      storeGet s key = (none, false, some e) ∧
      storeHas s key = (false, some e) ∧
      storePut s key value = (s, some e) ∧
      storeGetSize s key = storeGetSize {s with err := none} key := by
  intro σi σp s e key value herr
  refine ⟨by simp [storeGet, herr], by simp [storeHas, herr],
    by simp [storePut, herr], ?_⟩
  cases s
  rfl

/-- C7, witness for the amended theorem at the concrete errored store. -/
theorem C7_witness :
    storeGet csErr [3] = (none, false, some (GoErr.ioErr 1)) ∧
    storeHas csErr [3] = (false, some (GoErr.ioErr 1)) ∧
    storePut csErr [3] [4] = (csErr, some (GoErr.ioErr 1)) ∧
    storeGetSize csErr [3] = storeGetSize {csErr with err := none} [3] :=
  C7_stored_error_behaviour csErr (GoErr.ioErr 1) [3] [4] rfl

/-- A concrete store whose index lookup reports found=false together with a
non-nil error. -/
def csIdxErr : StoreM Unit Unit :=
  {csBase with indexGet := fun _ _ => (⟨⟨0, 0⟩, 0⟩, false, some (GoErr.ioErr 2))}

/-- C10: when the index lookup inside `Has(k)` returns found=false together
with a non-nil error, `Has` returns `(false, nil)` — the index error is
discarded, making a failed index read indistinguishable from an absent
key. -/
theorem C10_has_discards_index_error :
    ∀ {σi σp : Type} (s : StoreM σi σp) (key indexKey : List Nat)
      (blk : KeyedBlock) (e : GoErr),
      s.err = none →
      s.indexKeyFn key = .ok indexKey →
      s.indexGet s.indexSt indexKey = (blk, false, some e) →
      storeHas s key = (false, none) := by
  intro σi σp s key indexKey blk e herr hik hig
  simp [storeHas, herr, hik, hig]

/-- C10, witness: the concrete store whose index read fails still answers
`Has` with `(false, nil)`. -/
theorem C10_witness : storeHas csIdxErr [5] = (false, none) :=
  C10_has_discards_index_error csIdxErr [5] [5] ⟨⟨0, 0⟩, 0⟩ (GoErr.ioErr 2)
    rfl rfl rfl

/-- C8: bucket-table construction with indexSizeBits > 32 fails with
`IndexTooLarge`; for indexSizeBits ≤ 32 it yields an array of length
`2 ^ indexSizeBits`, and every `Get` or `Put` at a bucket index below
`2 ^ indexSizeBits` succeeds while every access at or beyond it fails with
`OutOfBounds`. -/
theorem C8_buckets_bounds :
    ∀ bits : Nat,
      (32 < bits → newBuckets bits = .error GoErr.indexTooLarge) ∧
      (bits ≤ 32 →
        ∃ b, newBuckets bits = .ok b ∧ b.length = 2 ^ bits ∧
          ∀ i v : Nat,
            (i < 2 ^ bits →
              bucketsGet b i = .ok (b.getD i 0) ∧
              bucketsPut b i v = .ok (b.set i v)) ∧
            (2 ^ bits ≤ i →
              bucketsGet b i = .error GoErr.outOfBounds ∧
              bucketsPut b i v = .error GoErr.outOfBounds)) := by
  intro bits
  constructor
  · intro h
    unfold newBuckets
    rw [if_pos h]
  · intro h
    refine ⟨List.replicate (2 ^ bits) 0,
      by unfold newBuckets; rw [if_neg (by omega)],
      List.length_replicate _ _, ?_⟩
    intro i v
    have hlen : (List.replicate (2 ^ bits) (0 : Nat)).length = 2 ^ bits :=
      List.length_replicate _ _
    have hpos : 1 ≤ 2 ^ bits := Nat.one_le_two_pow
    constructor
    · intro hi
      have hcast : (i : Int) < ((2 ^ bits : Nat) : Int) := by
        exact_mod_cast hi
      have hcond : ¬((i : Int) >
          ((List.replicate (2 ^ bits) (0 : Nat)).length : Int) - 1) := by
        rw [hlen]
        omega
      exact ⟨by unfold bucketsGet; rw [if_neg hcond],
        by unfold bucketsPut; rw [if_neg hcond]⟩
    · intro hi
      have hcast : ((2 ^ bits : Nat) : Int) ≤ (i : Int) := by
        exact_mod_cast hi
      have hcond : (i : Int) >
          ((List.replicate (2 ^ bits) (0 : Nat)).length : Int) - 1 := by
        rw [hlen]
        omega
      exact ⟨by unfold bucketsGet; rw [if_pos hcond],
        by unfold bucketsPut; rw [if_pos hcond]⟩

/-- C8, witness: concrete instances — construction fails at 33 bits and
succeeds at 2 bits with the stated in-range and out-of-range behaviour. -/
theorem C8_witness :
    newBuckets 33 = .error GoErr.indexTooLarge ∧
    ∃ b, newBuckets 2 = .ok b ∧ b.length = 2 ^ 2 ∧
      ∀ i v : Nat,
        (i < 2 ^ 2 →
          bucketsGet b i = .ok (b.getD i 0) ∧
          bucketsPut b i v = .ok (b.set i v)) ∧
        (2 ^ 2 ≤ i →
          bucketsGet b i = .error GoErr.outOfBounds ∧
          bucketsPut b i v = .error GoErr.outOfBounds) :=
  ⟨(C8_buckets_bounds 33).1 (by decide), (C8_buckets_bounds 2).2 (by decide)⟩

theorem storeCommit_openFlag {σi σp : Type} (s : StoreM σi σp) :
    (storeCommit s).1.openFlag = s.openFlag := by
  unfold storeCommit
  repeat' split
  all_goals rfl

theorem closeCommitStep_openFlag {σi σp : Type} (s : StoreM σi σp) :
    (closeCommitStep s).openFlag = s.openFlag := by
  unfold closeCommitStep
  split
  · split
    · rename_i s3 w e heq
      have h := storeCommit_openFlag s
      rw [heq] at h
      exact h
    · rename_i s3 w heq
      have h := storeCommit_openFlag s
      rw [heq] at h
      exact h
  · rfl

theorem closeFiles_fst {σi σp : Type} (s2 : StoreM σi σp) :
    (closeFiles s2).1 = s2 := by
  unfold closeFiles
  repeat' split
  all_goals rfl

theorem closeInner_openFlag {σi σp : Type} (s : StoreM σi σp) :
    (closeInner s).1.openFlag = s.openFlag := by
  unfold closeInner
  rw [closeFiles_fst]
  exact closeCommitStep_openFlag _

theorem storeClose_openFlag {σi σp : Type} (s : StoreM σi σp) :
    (storeClose s).1.openFlag = false := by
  unfold storeClose
  split
  · rw [closeInner_openFlag]
  · rfl

theorem storeM_set_openFlag_self {σi σp : Type} (s : StoreM σi σp)
    (h : s.openFlag = false) : {s with openFlag := false} = s := by
  cases s
  simp_all

/-- C9: `Close` is idempotent — after a first `Close` has run, in any
state, a second `Close` performs no further work (the store state is
returned untouched) and returns no error. -/
theorem C9_close_idempotent :
    ∀ {σi σp : Type} (s : StoreM σi σp),
      storeClose ((storeClose s).1) = ((storeClose s).1, none) := by
  intro σi σp s
  have h := storeClose_openFlag s
  set s1 := (storeClose s).1 with hs1
  unfold storeClose
  rw [if_neg (by rw [h]; exact Bool.false_ne_true)]
  rw [storeM_set_openFlag_self s1 h]
